import Mathlib

/-!
Verification development for the `yamlprocessor` data processor
(`src/yamlprocessor/dataprocess.py`).

The Python module resolves a YAML-compatible tree by expanding `INCLUDE`
directives and substituting `$NAME` / `${NAME}` / `${NAME.cast}` tokens in
string scalars, including derived `YP_TIME_*` date-time values.

This file gives a shallow embedding of that module:

* `Value` models the YAML data tree (maps restricted to string keys, which
  covers every structure exercised here);
* `process_variable` / `process_variable_loop` model
  `DataProcessor.process_variable` together with the compiled
  `REC_SUBSTITUTE` regular expression (modelled as an explicit scanner with
  the exact lazy-head / greedy-escape semantics of the pattern);
* `process_time_variable` and friends model `_process_time_variable`,
  `_process_time_variable_deltas`, `strftime_with_colon_z`, and the
  relevant documented behaviour of `dateutil.relativedelta`;
* `get_filename`, `load_include_file`, `process_data` model the include
  resolver.  Python's mutable worklist over an in-place mutated tree is
  modelled by structural recursion (disjoint subtrees make the two
  evaluation orders agree); unbounded include loops are modelled with an
  explicit fuel parameter (`ProcError.fuelExhausted` marks exhaustion, a
  state in which the Python program would still be running).

External collaborators (the YAML parser, `jsonschema`, `jmespath`,
`os.path`, Python builtins `int()` / `float()` / `str.lower()`,
`dateutil`) are modelled from their documented behaviour on the inputs
this module can hand them.
-/

/-- Errors raised by the data processor.  Each constructor names the Python
exception it models. -/
inductive ProcError where
  /-- `UnboundVariableError(name)` -/
  | unboundVariable (name : String)
  /-- `ValueError(f'{item}: bad substitution expression')` -/
  | malformedSubstitution (item : String)
  /-- `ValueError(f'{item}: bad substitution value: {substitute}')` -/
  | badCastValue (item : String) (substitute : String)
  /-- `OSError(ENOENT, ...)` from `get_filename` / missing file -/
  | notFound (filename : String)
  /-- bare `TypeError()` (merge container mismatch) -/
  | typeError
  /-- modelling artefact: the fuel bound was reached; the Python program
  would still be looping (e.g. cyclic includes).  Never produced on the
  concrete inputs used by the theorems below. -/
  | fuelExhausted
deriving DecidableEq, Repr

/-- Python `float(...)` result, modelled as an exact decimal
`mant * 10 ^ exp10`, or an infinity / NaN literal.  The builtin is an
external collaborator; only parse success/failure matters here. -/
inductive PyFloat where
  | finite (mant : Int) (exp10 : Int)
  | infinite (pos : Bool)
  | nan
deriving DecidableEq, Repr

/-- YAML-compatible data tree: `None`, `bool`, `int`, `float`, `str`,
`list`, ordered `dict` (string keys; every structure in this module's
tests and in the claims uses string keys). -/
inductive Value where
  | vnull
  | vbool (b : Bool)
  | vint (n : Int)
  | vfloat (f : PyFloat)
  | vstr (s : String)
  | vlist (items : List Value)
  | vmap (entries : List (String × Value))
deriving Repr

mutual

/-- Structural equality on `Value`, modelling Python `==` / `!=` on the
loaded data.  (Python dict equality ignores entry order; at the single
place the module compares composites — `include_data != item` — the two
notions agree, because the compared values are either literally the same
object or differ in shape.) -/
def valueBeq : Value → Value → Bool
  | .vnull, .vnull => true
  | .vbool a, .vbool b => a = b
  | .vint a, .vint b => a = b
  | .vfloat a, .vfloat b => a = b
  | .vstr a, .vstr b => a = b
  | .vlist a, .vlist b => valueListBeq a b
  | .vmap a, .vmap b => valueEntriesBeq a b
  | _, _ => false

/-- Elementwise `valueBeq` on lists. -/
def valueListBeq : List Value → List Value → Bool
  | [], [] => true
  | a :: as, b :: bs => valueBeq a b && valueListBeq as bs
  | _, _ => false

/-- Elementwise `valueBeq` on dict entries. -/
def valueEntriesBeq : List (String × Value) → List (String × Value) → Bool
  | [], [] => true
  | (k1, v1) :: r1, (k2, v2) :: r2 =>
    k1 = k2 && valueBeq v1 v2 && valueEntriesBeq r1 r2
  | _, _ => false

end

/-- True for `dict` and `list` nodes (`isinstance(item, dict) or
isinstance(item, list)`). -/
def Value.isComposite : Value → Bool
  | .vlist _ => true
  | .vmap _ => true
  | _ => false

/-- Python `dict` lookup `kvs[k]` (ordered dict with unique keys). -/
def dictGet (kvs : List (String × Value)) (k : String) : Option Value :=
  (kvs.find? (fun e => e.1 = k)).map (fun e => e.2)

/-- Python `k in kvs`. -/
def dictHas (kvs : List (String × Value)) (k : String) : Bool :=
  kvs.any (fun e => e.1 = k)

/-- Python `kvs[k] = v`: update in place if the key exists (keeping its
position), else append (insertion order). -/
def dictSet (kvs : List (String × Value)) (k : String) (v : Value) :
    List (String × Value) :=
  if dictHas kvs k then
    kvs.map (fun e => if e.1 = k then (k, v) else e)
  else
    kvs ++ [(k, v)]

/-- Python `del kvs[k]`. -/
def dictDel (kvs : List (String × Value)) (k : String) :
    List (String × Value) :=
  kvs.filter (fun e => ¬ e.1 = k)

/-- Variable scope: Python `dict` mapping names to string values
(`DataProcessor.variable_map` and its branch-local copies). -/
abbrev VarMap : Type := List (String × String)

/-- Scope lookup `vm[name]`. -/
def vmGet (vm : VarMap) (k : String) : Option String :=
  (vm.find? (fun e => e.1 = k)).map (fun e => e.2)

/-- Scope update `vm[k] = v` (same order semantics as `dictSet`). -/
def vmSet (vm : VarMap) (k : String) (v : String) : VarMap :=
  if vm.any (fun e => e.1 = k) then
    vm.map (fun e => if e.1 = k then (k, v) else e)
  else
    vm ++ [(k, v)]

/-- `vm.update(other)` : apply `vmSet` for each entry of `other` in order. -/
def vmUpdate (vm : VarMap) (other : List (String × String)) : VarMap :=
  other.foldl (fun acc e => vmSet acc e.1 e.2) vm

/-! ### Character classes of the regular expressions

`REC_SUBSTITUTE` uses `[A-z_]` (the ASCII *range* between `A` and `z`,
which also contains `[ \ ] ^ _` and the backtick) for the first name
character and `\w` for the rest. -/

/-- Regex class `[A-z_]`. -/
def nameStartChar (c : Char) : Bool := ('A' ≤ c && c ≤ 'z') || c == '_'

/-- Regex class `\w` (ASCII; all inputs here are ASCII). -/
def wordChar (c : Char) : Bool := c.isAlpha || c.isDigit || c == '_'

/-- Python `str.isspace` characters stripped by `int()` / `float()`. -/
def pySpace (c : Char) : Bool :=
  c == ' ' || c == '\t' || c == '\n' || c == '\r' || c == '\x0b' || c == '\x0c'

/-- Numeric value of a digit run. -/
def digitsVal (ds : List Char) : Nat :=
  ds.foldl (fun a c => a * 10 + (c.toNat - 48)) 0

/-- Python `s.startswith(p)` (code-point prefix test). -/
def strStartsWith (s p : String) : Bool :=
  s.data.take p.data.length == p.data

/-- Python slicing `s[n:]` (by code points; ASCII here). -/
def strDropChars (s : String) (n : Nat) : String :=
  String.mk (s.data.drop n)

/-- ASCII lowercase, modelling Python `str.lower()` on the ASCII inputs
used by this module. -/
def asciiLower (c : Char) : Char :=
  if 'A' ≤ c && c ≤ 'Z' then Char.ofNat (c.toNat + 32) else c

/-- Python `s.lower()` (ASCII). -/
def strLower (s : String) : String := String.mk (s.data.map asciiLower)

/-- One pass of Python `str.replace`: left-to-right, non-overlapping.
Fuel is the length of the remaining text; each step consumes at least one
character and one unit of fuel, so `fuel = cs.length` makes the bounded
recursion coincide with the unbounded one. -/
def replaceGo (pat rep : List Char) : Nat → List Char → List Char
  | 0, cs => cs
  | _, [] => []
  | fuel + 1, c :: cs =>
    if pat ≠ [] ∧ (c :: cs).take pat.length = pat then
      rep ++ replaceGo pat rep fuel ((c :: cs).drop pat.length)
    else
      c :: replaceGo pat rep fuel cs

/-- Python `s.replace(pat, rep)` (for the non-empty patterns used here). -/
def strReplace (s pat rep : String) : String :=
  String.mk (replaceGo pat.data rep.data s.data.length s.data)

/-- Substring occurrence test (Python `pat in s`). -/
def listHasSub (pat : List Char) : List Char → Bool
  | [] => pat == []
  | c :: cs => ((c :: cs).take pat.length == pat) || listHasSub pat cs

/-- Python `pat in s` for strings. -/
def strContains (s pat : String) : Bool := listHasSub pat.data s.data

/-! ### Calendar model

Proleptic Gregorian calendar, used to model `datetime` + `timedelta` and
the calendar-aware parts of `dateutil.relativedelta`.  `days_from_civil` /
`civil_from_days` are the standard bijection between calendar dates and
day numbers (days since 1970-01-01). -/

/-- Gregorian leap-year test. -/
def isLeap (y : Int) : Bool :=
  y % 4 = 0 && (y % 100 ≠ 0 || y % 400 = 0)

/-- Length of a month (`calendar.monthrange(y, m)[1]`).  The Python
function raises for `m` outside `1..12`; the model is total there (the
claims never reach that case). -/
def daysInMonth (y m : Int) : Int :=
  if m = 2 then (if isLeap y then 29 else 28)
  else if m = 4 ∨ m = 6 ∨ m = 9 ∨ m = 11 then 30
  else 31

/-- Day number of a calendar date (days since 1970-01-01). -/
def days_from_civil (y m d : Int) : Int :=
  let y1 := y - (if m ≤ 2 then 1 else 0)
  let era := y1.fdiv 400
  let yoe := y1 - era * 400
  let mp := (m + 9).emod 12
  let doy := (153 * mp + 2).fdiv 5 + d - 1
  let doe := yoe * 365 + yoe.fdiv 4 - yoe.fdiv 100 + doy
  era * 146097 + doe - 719468

/-- Calendar date of a day number (inverse of `days_from_civil`). -/
def civil_from_days (z0 : Int) : Int × Int × Int :=
  let z := z0 + 719468
  let era := z.fdiv 146097
  let doe := z - era * 146097
  let yoe := (doe - doe.fdiv 1460 + doe.fdiv 36524 - doe.fdiv 146096).fdiv 365
  let y := yoe + era * 400
  let doy := doe - (365 * yoe + yoe.fdiv 4 - yoe.fdiv 100)
  let mp := (5 * doy + 2).fdiv 153
  let d := doy - (153 * mp + 2).fdiv 5 + 1
  let m := mp + (if mp < 10 then 3 else -9)
  (y + (if m ≤ 2 then 1 else 0), m, d)

/-- `datetime.datetime`, to whole seconds (no microseconds are produced by
this module's time grammar) with an optional fixed UTC offset in seconds
(`None` = naive). -/
structure PyDateTime where
  year : Int
  month : Int
  day : Int
  hour : Int
  minute : Int
  second : Int
  utcOffset : Option Int
deriving DecidableEq, Repr

/-- `datetime + timedelta(seconds=delta)`: exact second arithmetic with
full carry across days/months/years; the tz offset is kept. -/
def dtPlusSeconds (dt : PyDateTime) (delta : Int) : PyDateTime :=
  let dayNum := days_from_civil dt.year dt.month dt.day
  let total := dayNum * 86400 + dt.hour * 3600 + dt.minute * 60 + dt.second + delta
  let d2 := total.fdiv 86400
  let s2 := total.fmod 86400
  let c := civil_from_days d2
  { year := c.1, month := c.2.1, day := c.2.2,
    hour := s2.fdiv 3600, minute := (s2.fdiv 60).fmod 60, second := s2.fmod 60,
    utcOffset := dt.utcOffset }

/-- `dateutil.relativedelta.relativedelta` restricted to the arguments the
delta grammar can produce: relative plural fields and absolute singular
fields. -/
structure RelativeDelta where
  years : Int := 0
  months : Int := 0
  days : Int := 0
  hours : Int := 0
  minutes : Int := 0
  seconds : Int := 0
  year : Option Int := none
  month : Option Int := none
  day : Option Int := none
  hour : Option Int := none
  minute : Option Int := none
  second : Option Int := none
deriving DecidableEq, Repr

/-- Sign as used by `relativedelta._fix` (`copysign(1, x)`). -/
def rdSign (x : Int) : Int := if x < 0 then -1 else 1

/-- `relativedelta._fix`: normalise seconds→minutes→hours→days and
months→years, preserving sign (documented constructor behaviour). -/
def rdFix (rd : RelativeDelta) : RelativeDelta :=
  let roll (v : Int) (limit : Int) (base : Int) : Int × Int :=
    if limit < (v.natAbs : Int) then
      let s := rdSign v
      (((v * s).ediv base) * s, ((v * s).emod base) * s)
    else (0, v)
  let p1 := roll rd.seconds 59 60
  let minutes1 := rd.minutes + p1.1
  let p2 := roll minutes1 59 60
  let hours1 := rd.hours + p2.1
  let p3 := roll hours1 23 24
  let days1 := rd.days + p3.1
  let p4 := roll rd.months 11 12
  { rd with
    seconds := p1.2, minutes := p2.2, hours := p3.2, days := days1,
    months := p4.2, years := rd.years + p4.1 }

/-- Python truthiness fallback `self.f or other_f` used by
`relativedelta.__radd__` for the absolute date fields (`None` *and* `0`
both fall back to the datetime's own field). -/
def orTruthy (a : Option Int) (b : Int) : Int :=
  match a with
  | some v => if v = 0 then b else v
  | none => b

/-- `datetime + relativedelta` (`relativedelta.__radd__`, documented
behaviour): absolute year/month/day/hour/minute/second replacement, then
calendar-aware month shift with day clamped to the month length, then a
plain timedelta of the relative day/time fields. -/
def rdAdd (other : PyDateTime) (rd : RelativeDelta) : PyDateTime :=
  let year0 := orTruthy rd.year other.year + rd.years
  let month0 := orTruthy rd.month other.month
  let ym :=
    if rd.months ≠ 0 then
      let m := month0 + rd.months
      if 12 < m then (year0 + 1, m - 12)
      else if m < 1 then (year0 - 1, m + 12)
      else (year0, m)
    else (year0, month0)
  let day1 := min (daysInMonth ym.1 ym.2) (orTruthy rd.day other.day)
  let base : PyDateTime :=
    { year := ym.1, month := ym.2, day := day1,
      hour := rd.hour.getD other.hour, minute := rd.minute.getD other.minute,
      second := rd.second.getD other.second, utcOffset := other.utcOffset }
  dtPlusSeconds base (rd.days * 86400 + rd.hours * 3600 + rd.minutes * 60 + rd.seconds)

/-! ### Delta name grammar

Model of `REC_SUBSTITUTE_TIME_DELTA.findall` /
`REC_DELTA_DATE.findall` / `REC_DELTA_TIME.findall`.  Scanners are
written with a fuel argument equal to the input length; every recursive
step consumes at least one character and exactly one unit of fuel, so
the bound never changes the result. -/

/-- Maximal chain of `\d+U` units with `U` drawn from `allowed`
(the greedy `(?:\d+[YMD])+` / `(?:\d+[HMS])+` groups).  Returns the unit
list and the unconsumed remainder; a trailing digit run without a unit
letter is not consumed. -/
def parseUnitsGo (allowed : List Char) : Nat → List Char → List (Nat × Char) × List Char
  | 0, cs => ([], cs)
  | fuel + 1, cs =>
    match cs.dropWhile Char.isDigit with
    | u :: r2 =>
      if cs.takeWhile Char.isDigit ≠ [] ∧ u ∈ allowed then
        let p := parseUnitsGo allowed fuel r2
        ((digitsVal (cs.takeWhile Char.isDigit), u) :: p.1, p.2)
      else ([], cs)
    | [] => ([], cs)

/-- Entry point for the unit-chain parser. -/
def parseUnits (allowed cs : List Char) : List (Nat × Char) × List Char :=
  parseUnitsGo allowed cs.length cs

/-- The repeated time group `(?P<time>T(?:\d+[HMS])+)*`: consume `T`-led
unit blocks greedily; the regex capture of a repeated group is its *last*
repetition. -/
def parseTimeBlocksGo : Nat → List Char → List (Nat × Char) → List (Nat × Char) × List Char
  | 0, cs, last => (last, cs)
  | fuel + 1, cs, last =>
    match cs with
    | 'T' :: r =>
      let p := parseUnits ['H', 'M', 'S'] r
      if p.1 ≠ [] then parseTimeBlocksGo fuel p.2 p.1 else (last, cs)
    | _ => (last, cs)

/-- Entry point for the time-block parser. -/
def parseTimeBlocks (cs : List Char) : List (Nat × Char) × List Char :=
  parseTimeBlocksGo cs.length cs []

/-- Try to match `_(?:AT|PLUS|MINUS)_` followed by the date/time unit
groups at the head of `cs`.  Returns modifier, date units, time units
(last repetition, as captured) and the remainder after the match. -/
def tryDeltaAt (cs : List Char) : Option (String × List (Nat × Char) × List (Nat × Char) × List Char) :=
  match cs with
  | '_' :: r =>
    let mod? : Option (String × List Char) :=
      if r.take 3 == ['A', 'T', '_'] then some ("AT", r.drop 3)
      else if r.take 5 == ['P', 'L', 'U', 'S', '_'] then some ("PLUS", r.drop 5)
      else if r.take 6 == ['M', 'I', 'N', 'U', 'S', '_'] then some ("MINUS", r.drop 6)
      else none
    match mod? with
    | some (m, r1) =>
      let pd := parseUnits ['Y', 'M', 'D'] r1
      let pt := parseTimeBlocks pd.2
      some (m, pd.1, pt.1, pt.2)
    | none => none
  | _ => none

/-- `REC_SUBSTITUTE_TIME_DELTA.findall`: left-to-right non-overlapping
scan; text that does not match the delta grammar is skipped, never an
error. -/
def findDeltaGo : Nat → List Char → List (String × List (Nat × Char) × List (Nat × Char))
  | 0, _ => []
  | fuel + 1, cs =>
    match cs with
    | [] => []
    | c :: cs1 =>
      match tryDeltaAt (c :: cs1) with
      | some (m, d, t, rest) => (m, d, t) :: findDeltaGo fuel rest
      | none => findDeltaGo fuel cs1

/-- Entry point for the delta findall model. -/
def findDeltaMatches (cs : List Char) : List (String × List (Nat × Char) × List (Nat × Char)) :=
  findDeltaGo cs.length cs

/-- One date-unit assignment into the `delta_args` dict (`modifier_map`
of `_process_time_variable_deltas`); a later assignment to the same
field overwrites (dict `update`). -/
def rdSetDate (modifier : String) (rd : RelativeDelta) (n : Nat) (u : Char) : RelativeDelta :=
  if modifier = "AT" then
    match u with
    | 'Y' => { rd with year := some (n : Int) }
    | 'M' => { rd with month := some (n : Int) }
    | _ => { rd with day := some (n : Int) }
  else
    let v : Int := if modifier = "MINUS" then -(n : Int) else (n : Int)
    match u with
    | 'Y' => { rd with years := v }
    | 'M' => { rd with months := v }
    | _ => { rd with days := v }

/-- One time-unit assignment into the `delta_args` dict. -/
def rdSetTime (modifier : String) (rd : RelativeDelta) (n : Nat) (u : Char) : RelativeDelta :=
  if modifier = "AT" then
    match u with
    | 'H' => { rd with hour := some (n : Int) }
    | 'M' => { rd with minute := some (n : Int) }
    | _ => { rd with second := some (n : Int) }
  else
    let v : Int := if modifier = "MINUS" then -(n : Int) else (n : Int)
    match u with
    | 'H' => { rd with hours := v }
    | 'M' => { rd with minutes := v }
    | _ => { rd with seconds := v }

/-- Build the `relativedelta` for one findall tuple
(`relativedelta(**delta_args)`, normalised at construction). -/
def deltaOfMatch (m : String × List (Nat × Char) × List (Nat × Char)) : RelativeDelta :=
  let rd := m.2.1.foldl (fun rd p => rdSetDate m.1 rd p.1 p.2) {}
  let rd := m.2.2.foldl (fun rd p => rdSetTime m.1 rd p.1 p.2) rd
  rdFix rd

/-- `DataProcessor._process_time_variable_deltas` (lines 631-685).  The
model is total: `findall` extracts only well-formed modifier segments and
skips everything else, so no exception can arise here (the source wraps
this call in a `try/except UnboundVariableError` that can therefore never
fire for the delta segment itself). -/
def process_time_variable_deltas (tail : String) : List RelativeDelta :=
  (findDeltaMatches tail.data).map deltaOfMatch

/-- `REC_SUBSTITUTE_TIME_FORMAT.search`: first `_FORMAT_` followed by at
least one `\w` character; the greedy `\w+` run is the format name. -/
def searchTimeFormat : List Char → Option String
  | [] => none
  | c :: cs =>
    if (c :: cs).take 8 == "_FORMAT_".data then
      let nm := ((c :: cs).drop 8).takeWhile wordChar
      if nm ≠ [] then some (String.mk nm) else searchTimeFormat cs
    else searchTimeFormat cs

/-- Two-digit zero padding (`%02d` for the non-negative values used). -/
def pad2 (n : Int) : String :=
  if 0 ≤ n ∧ n < 10 then "0" ++ toString n else toString n

/-- `strftime` code `%z` on an aware datetime: `±HHMM`, with seconds
appended when non-zero. -/
def zOffsetBasic (off : Int) : String :=
  let sign := if off < 0 then "-" else "+"
  let a : Int := (off.natAbs : Int)
  sign ++ pad2 (a / 3600) ++ pad2 (a / 60 % 60) ++
    (if a % 60 ≠ 0 then pad2 (a % 60) else "")

/-- One `strftime` format code (the codes used by this module's formats). -/
def strfCode (dt : PyDateTime) (c : Char) : String :=
  match c with
  | 'Y' => toString dt.year
  | 'm' => pad2 dt.month
  | 'd' => pad2 dt.day
  | 'H' => pad2 dt.hour
  | 'M' => pad2 dt.minute
  | 'S' => pad2 dt.second
  | 'F' => toString dt.year ++ "-" ++ pad2 dt.month ++ "-" ++ pad2 dt.day
  | 'T' => pad2 dt.hour ++ ":" ++ pad2 dt.minute ++ ":" ++ pad2 dt.second
  | 'z' => (match dt.utcOffset with
            | some off => zOffsetBasic off
            | none => "")
  | '%' => "%"
  | other => String.mk ['%', other]

/-- `datetime.strftime` over the format string. -/
def strftimeGo (dt : PyDateTime) : List Char → String
  | [] => ""
  | '%' :: c :: rest => strfCode dt c ++ strftimeGo dt rest
  | c :: rest => String.mk [c] ++ strftimeGo dt rest

/-- Strip trailing `:00` groups (operates on the reversed character
list, so the patterns read `00:`). -/
def stripRev00 : List Char → List Char
  | '0' :: '0' :: ':' :: r => stripRev00 r
  | r => r

/-- `strftime_with_colon_z` (dataprocess.py lines 85-121): wrap
`strftime` to support `%:z`, `%::z`, `%:::z`; always renders a zero UTC
offset as `Z`. -/
def strftime_with_colon_z (dto : PyDateTime) (time_format : String) : String :=
  match dto.utcOffset with
  | none =>
    let f := strReplace (strReplace (strReplace (strReplace time_format
      "%z" "") "%:z" "") "%::z" "") "%:::z" ""
    strftimeGo dto f.data
  | some off =>
    if off = 0 then
      let f := strReplace (strReplace (strReplace (strReplace time_format
        "%z" "Z") "%:z" "Z") "%::z" "Z") "%:::z" "Z"
      strftimeGo dto f.data
    else if ¬ (strContains time_format "%:z" || strContains time_format "%::z"
        || strContains time_format "%:::z") then
      strftimeGo dto time_format.data
    else
      let sign := if 0 ≤ off then "+" else "-"
      let a : Int := (off.natAbs : Int)
      let offsetStr := sign ++ pad2 (a / 3600) ++ ":" ++ pad2 (a / 60 % 60)
        ++ ":" ++ pad2 (a % 60)
      let shortStr := String.mk (stripRev00 offsetStr.data.reverse).reverse
      let f := strReplace time_format "%:z" (String.mk (offsetStr.data.take 6))
      let f := strReplace f "%::z" offsetStr
      let f := strReplace f "%:::z" shortStr
      strftimeGo dto f.data

/-- The `DataProcessor` instance state (constructor `__init__`, lines
286-303), together with the modelled filesystem the instance reads.
`files` maps absolute paths to their parsed YAML content; `cwd` is
`os.path.abspath('.')`. -/
structure DataProcessor where
  is_process_include : Bool := true
  is_process_variable : Bool := true
  include_paths : List String := []
  include_dict : List (String × Value) := []
  time_formats : List (String × String) := [("", "%FT%T%:z")]
  time_now : PyDateTime
  time_ref : PyDateTime
  variable_map : VarMap := []
  unbound_placeholder : Option String := none
  files : List (String × Value) := []
  cwd : String := "/"

/-- `DataProcessor._process_time_variable` (lines 602-629).  The source
wraps the delta computation in `try/except UnboundVariableError` and
re-raises with the full name; the modelled delta scanner is total, so
only the prefix test and the format lookup can fail. -/
def process_time_variable (P : DataProcessor) (name : String) : Except ProcError String :=
  let dtoE : Except ProcError PyDateTime :=
    if strStartsWith name "YP_TIME_NOW" then .ok P.time_now
    else if strStartsWith name "YP_TIME_REF" then .ok P.time_ref
    else .error (.unboundVariable name)
  match dtoE with
  | .error e => .error e
  | .ok dto =>
    let tail := strDropChars name 11
    let deltas := process_time_variable_deltas tail
    let dto2 := deltas.foldl rdAdd dto
    let key := (searchTimeFormat tail.data).getD ""
    match vmGet P.time_formats key with
    | some fmt => .ok (strftime_with_colon_z dto2 fmt)
    | none => .error (.unboundVariable name)

/-! ### The `REC_SUBSTITUTE` token scanner

The compiled pattern (lines 258-271) is
`\A(head:.*?)(escape:\\*)($ (brace?) (name:[A-z_]\w*) (cast:\.(int|float|bool))? (brace⇒}))(tail:.*)\Z`
with DOTALL.  The lazy head means: the match starts at the first position
from the left where a maximal backslash run followed by a well-formed
`$`-token occurs; the escape group then holds that whole backslash run.
`findTokenAux` is that scanner; the piece-length lemmas below justify the
termination of the scanning loop. -/

/-- Cast suffix alternatives `(?:int|float|bool)`. -/
inductive CastKind where
  | toInt
  | toFloat
  | toBool
deriving DecidableEq, Repr

/-- Characters of a cast suffix, including the dot. -/
def castChars : CastKind → List Char
  | .toInt => ['.', 'i', 'n', 't']
  | .toFloat => ['.', 'f', 'l', 'o', 'a', 't']
  | .toBool => ['.', 'b', 'o', 'o', 'l']

/-- A matched token: brace form, name, optional cast suffix. -/
structure Tok where
  braced : Bool
  name : List Char
  cast : Option CastKind
deriving DecidableEq, Repr

/-- The token text after the `$` sign. -/
def tokBody (t : Tok) : List Char :=
  (if t.braced then ['{'] else []) ++ t.name
    ++ (match t.cast with | some ck => castChars ck | none => [])
    ++ (if t.braced then ['}'] else [])

/-- The full matched token text (regex group `symbol`). -/
def symbolStr (t : Tok) : String := String.mk ('$' :: tokBody t)

/-- Parse `[A-z_]\w*` (greedy; backtracking can never shorten it, since
no follower of the name group accepts a `\w` character). -/
def parseName (cs : List Char) : Option (List Char × List Char) :=
  match cs with
  | c :: rest =>
    if nameStartChar c then
      some (c :: rest.takeWhile wordChar, rest.dropWhile wordChar)
    else none
  | [] => none

/-- Parse the cast group `\.(?:int|float|bool)` (alternation order of the
pattern; the alternatives have distinct first letters). -/
def parseCast (cs : List Char) : Option (CastKind × List Char) :=
  match cs with
  | '.' :: rest =>
    if rest.take 3 = ['i', 'n', 't'] then some (.toInt, rest.drop 3)
    else if rest.take 5 = ['f', 'l', 'o', 'a', 't'] then some (.toFloat, rest.drop 5)
    else if rest.take 4 = ['b', 'o', 'o', 'l'] then some (.toBool, rest.drop 4)
    else none
  | _ => none

/-- Parse the token after the `$`: optional `{`, name, optional cast, and
the closing `}` demanded by the conditional group when the brace was
taken.  When the brace was taken and the cast parsed but no `}` follows,
the regex backtracks to the no-cast reading, which demands `}` right
after the name — impossible because the cast reading began with `.`; the
whole attempt fails, as modelled. -/
def parseTok (cs : List Char) : Option (Tok × List Char) :=
  match cs with
  | '{' :: cs1 =>
    (match parseName cs1 with
     | some (nm, r1) =>
       (match parseCast r1 with
        | some (ck, r2) =>
          (match r2 with
           | '}' :: r3 => some ({ braced := true, name := nm, cast := some ck }, r3)
           | _ => none)
        | none =>
          (match r1 with
           | '}' :: r3 => some ({ braced := true, name := nm, cast := none }, r3)
           | _ => none))
     | none => none)
  | _ =>
    (match parseName cs with
     | some (nm, r1) =>
       (match parseCast r1 with
        | some (ck, r2) => some ({ braced := false, name := nm, cast := some ck }, r2)
        | none => some ({ braced := false, name := nm, cast := none }, r1))
     | none => none)

/-- Attempt a match at the current position: maximal backslash run, then
`$`, then a token.  (If the token fails, no shorter backslash run can
succeed, because the escape group is followed by a mandatory `$`.) -/
def tryTokenAt (cs : List Char) : Option (Nat × Tok × List Char) :=
  match cs.dropWhile (fun c => c == '\\') with
  | '$' :: cs1 =>
    (match parseTok cs1 with
     | some (t, rest) =>
       some ((cs.takeWhile (fun c => c == '\\')).length, t, rest)
     | none => none)
  | _ => none

/-- The lazy-head scan of `REC_SUBSTITUTE.match`: try each start
position from the left; on success return (head, escape count, token,
tail). -/
def findTokenAux : List Char → Option (List Char × Nat × Tok × List Char)
  | [] => none
  | c :: cs =>
    match tryTokenAt (c :: cs) with
    | some (k, t, rest) => some ([], k, t, rest)
    | none =>
      match findTokenAux cs with
      | some (h, k, t, rest) => some (c :: h, k, t, rest)
      | none => none

theorem length_dropWhile_le' {α} (p : α → Bool) (l : List α) :
    (l.dropWhile p).length ≤ l.length := by
  induction l with
  | nil => simp [List.dropWhile]
  | cons c cs ih =>
    rw [List.dropWhile_cons]
    split
    · exact Nat.le_trans ih (Nat.le_succ _)
    · exact Nat.le_refl _

theorem parseName_lt {cs nm r} (h : parseName cs = some (nm, r)) :
    r.length < cs.length := by
  unfold parseName at h
  split at h
  · split at h
    · cases h
      rename_i c rest _
      have := length_dropWhile_le' wordChar rest
      simp only [List.length_cons]
      omega
    · exact Option.noConfusion h
  · exact Option.noConfusion h

theorem parseCast_lt {cs ck r} (h : parseCast cs = some (ck, r)) :
    r.length < cs.length := by
  unfold parseCast at h
  split at h
  · rename_i rest
    split at h
    · cases h; simp [List.length_drop]; omega
    · split at h
      · cases h; simp [List.length_drop]; omega
      · split at h
        · cases h; simp [List.length_drop]; omega
        · exact Option.noConfusion h
  · exact Option.noConfusion h

theorem parseTok_lt {cs t r} (h : parseTok cs = some (t, r)) :
    r.length < cs.length := by
  unfold parseTok at h
  split at h
  · rename_i cs1
    split at h
    · rename_i nm r1 hname
      have h1 := parseName_lt hname
      split at h
      · rename_i ck r2 hcast
        have h2 := parseCast_lt hcast
        split at h
        · cases h
          rename_i r3 _
          simp only [List.length_cons] at *
          omega
        · exact Option.noConfusion h
      · split at h
        · cases h
          rename_i r3 _
          simp only [List.length_cons] at *
          omega
        · exact Option.noConfusion h
    · exact Option.noConfusion h
  · split at h
    · rename_i nm r1 hname
      have h1 := parseName_lt hname
      split at h
      · rename_i ck r2 hcast
        have h2 := parseCast_lt hcast
        cases h
        omega
      · cases h
        omega
    · exact Option.noConfusion h

theorem tryTokenAt_lt {cs k t r} (h : tryTokenAt cs = some (k, t, r)) :
    r.length < cs.length := by
  unfold tryTokenAt at h
  split at h
  · rename_i cs1 hdrop
    split at h
    · rename_i tk rest htok
      cases h
      have h1 := parseTok_lt htok
      have h2 := length_dropWhile_le' (fun c => c == '\\') cs
      rw [hdrop] at h2
      simp only [List.length_cons] at h2
      omega
    · exact Option.noConfusion h
  · exact Option.noConfusion h

theorem findTokenAux_lt :
    ∀ {cs h k t r}, findTokenAux cs = some (h, k, t, r) → r.length < cs.length := by
  intro cs
  induction cs with
  | nil => intro h k t r hEq; exact Option.noConfusion hEq
  | cons c cs ih =>
    intro h k t r hEq
    unfold findTokenAux at hEq
    split at hEq
    · rename_i k' t' rest htry
      cases hEq
      exact tryTokenAt_lt htry
    · split at hEq
      · rename_i h' k' t' rest hrec
        cases hEq
        have := ih hrec
        simp only [List.length_cons]
        omega
      · exact Option.noConfusion hEq

/-! ### Casting and the substitution loop -/

/-- Strip leading and trailing whitespace, as Python `int()` / `float()`
do to their argument. -/
def trimPy (cs : List Char) : List Char :=
  ((cs.dropWhile pySpace).reverse.dropWhile pySpace).reverse

/-- A non-empty all-digit run as an integer. -/
def digitsOnly (ds : List Char) : Option Int :=
  if ds ≠ [] ∧ ds.all Char.isDigit then some (digitsVal ds : Int) else none

/-- Python `int(s)` for a string argument (collaborator builtin; the
underscore-separator extension is not modelled — no claim uses it). -/
def pyParseInt (s : String) : Option Int :=
  match trimPy s.data with
  | '+' :: ds => digitsOnly ds
  | '-' :: ds => (digitsOnly ds).map (fun n => -n)
  | ds => digitsOnly ds

/-- Unsigned part of a Python float literal: `inf`/`infinity`/`nan`
(case-insensitive) or `digits [. digits] [(e|E) [sign] digits]` with at
least one digit. -/
def parseFloatBody (sign : Int) (body : List Char) : Option PyFloat :=
  let low := body.map asciiLower
  if low = "inf".data ∨ low = "infinity".data then some (.infinite (sign == 1))
  else if low = "nan".data then some .nan
  else
    let ip := body.takeWhile Char.isDigit
    let r1 := body.dropWhile Char.isDigit
    let fpr :=
      match r1 with
      | '.' :: r => (r.takeWhile Char.isDigit, r.dropWhile Char.isDigit)
      | _ => (([] : List Char), r1)
    let fp := fpr.1
    if ip = [] ∧ fp = [] then none
    else
      let mant := sign * (digitsVal (ip ++ fp) : Int)
      match fpr.2 with
      | [] => some (.finite mant (-(fp.length : Int)))
      | e :: r3 =>
        if e == 'e' || e == 'E' then
          let er :=
            match r3 with
            | '+' :: r => ((1 : Int), r)
            | '-' :: r => ((-1 : Int), r)
            | r => ((1 : Int), r)
          if er.2 ≠ [] ∧ er.2.all Char.isDigit then
            some (.finite mant (er.1 * (digitsVal er.2 : Int) - (fp.length : Int)))
          else none
        else none

/-- Python `float(s)` for a string argument (collaborator builtin). -/
def pyParseFloat (s : String) : Option PyFloat :=
  match trimPy s.data with
  | '+' :: body => parseFloatBody 1 body
  | '-' :: body => parseFloatBody (-1) body
  | body => parseFloatBody 1 body

/-- The cast block of `process_variable` (lines 569-588): `int()`,
`float()`, or the case-insensitive boolean word sets; any failure is the
fatal `bad substitution value` error. -/
def castApply (item substitute : String) : CastKind → Except ProcError Value
  | .toInt =>
    match pyParseInt substitute with
    | some n => .ok (.vint n)
    | none => .error (.badCastValue item substitute)
  | .toFloat =>
    match pyParseFloat substitute with
    | some f => .ok (.vfloat f)
    | none => .error (.badCastValue item substitute)
  | .toBool =>
    let low := strLower substitute
    if low = "0" ∨ low = "false" ∨ low = "no" then .ok (.vbool false)
    else if low = "1" ∨ low = "true" ∨ low = "yes" then .ok (.vbool true)
    else .error (.badCastValue item substitute)

/-- The `substitute` computation of `process_variable` (lines 551-564):
an even escape count resolves the name — scope first, then the
`YP_TIME` calculator, then the unbound-variable policy — while an odd
escape count yields the token text itself. -/
def token_substitute (P : DataProcessor) (vm : VarMap) (k : Nat) (tok : Tok) :
    Except ProcError String :=
  if k % 2 = 0 then
    match vmGet vm (String.mk tok.name) with
    | some v => .ok v
    | none =>
      if strStartsWith (String.mk tok.name) "YP_TIME" then
        process_time_variable P (String.mk tok.name)
      else if P.unbound_placeholder = some "YP_ORIGINAL" then .ok (symbolStr tok)
      else
        match P.unbound_placeholder with
        | some p => .ok p
        | none => .error (.unboundVariable (String.mk tok.name))
  else .ok (symbolStr tok)

/-- The `while tail:` scanning loop of `process_variable` (lines
547-599).  `item` is the full original string (used by the
`tail != item` whole-string test of the cast guard), `ret` the output
accumulated so far, `tail` the remainder being scanned.  A successful
cast discards `ret` and the rest of the scan, returning the typed value;
otherwise the head, the halved backslash run and the substitute are
appended and scanning continues on the regex tail.  (The `[]`/no-match
loop exits are merged: both return `ret ++ tail`.)

The loop is bounded by a fuel argument so that it stays structurally
recursive; `process_variable` supplies `tail.length`, which never
changes the result: each iteration consumes at least one character of
`tail` (`findTokenAux_lt`), and at fuel `0` the invariant forces
`tail = []`, where the fuel row and the no-match row agree.
`process_variable_loop_fuel_irrelevant` below proves this. -/
def process_variable_loop (P : DataProcessor) (vm : VarMap) (item : String) :
    Nat → String → List Char → Except ProcError Value
  | 0, ret, tail => .ok (.vstr (ret ++ String.mk tail))
  | fuel + 1, ret, tail =>
    match findTokenAux tail with
    | none => .ok (.vstr (ret ++ String.mk tail))
    | some (head, k, tok, rest) =>
      match token_substitute P vm k tok with
      | .error e => .error e
      | .ok substitute =>
        match tok.cast with
        | some ck =>
          if substitute ≠ symbolStr tok then
            if head ≠ [] ∨ String.mk tail ≠ item then
              .error (.malformedSubstitution item)
            else castApply item substitute ck
          else
            process_variable_loop P vm item fuel
              (ret ++ String.mk head ++ String.mk (List.replicate (k / 2) '\\')
                ++ substitute) rest
        | none =>
          process_variable_loop P vm item fuel
            (ret ++ String.mk head ++ String.mk (List.replicate (k / 2) '\\')
              ++ substitute) rest

/-- Any fuel at least `tail.length` gives the same result: the bound in
`process_variable_loop` is a structural-recursion device, not a
semantic one. -/
theorem process_variable_loop_fuel_irrelevant
    (P : DataProcessor) (vm : VarMap) (item : String) :
    ∀ fuel fuel' ret tail, tail.length ≤ fuel → tail.length ≤ fuel' →
      process_variable_loop P vm item fuel ret tail
        = process_variable_loop P vm item fuel' ret tail := by
  intro fuel
  induction fuel with
  | zero =>
    intro fuel' ret tail h0 _
    have htail : tail = [] := List.length_eq_zero.mp (Nat.le_zero.mp h0)
    subst htail
    cases fuel' with
    | zero => rfl
    | succ f' => simp [process_variable_loop, findTokenAux]
  | succ f ih =>
    intro fuel' ret tail _ h'
    cases fuel' with
    | zero =>
      have htail : tail = [] := List.length_eq_zero.mp (Nat.le_zero.mp h')
      subst htail
      simp [process_variable_loop, findTokenAux]
    | succ f' =>
      cases hm : findTokenAux tail with
      | none => simp only [process_variable_loop, hm]
      | some q =>
        obtain ⟨head, k, tok, rest⟩ := q
        have hlt : rest.length < tail.length := findTokenAux_lt hm
        have hle1 : rest.length ≤ f := by omega
        have hle2 : rest.length ≤ f' := by omega
        simp only [process_variable_loop, hm]
        cases hsub : token_substitute P vm k tok with
        | error e => simp only [hsub]
        | ok substitute =>
          simp only [hsub]
          cases hc : tok.cast with
          | none => simp only [hc]; exact ih f' _ rest hle1 hle2
          | some ck =>
            simp only [hc]
            by_cases hs : substitute = symbolStr tok
            · simp only [hs, ne_eq, not_true_eq_false, ite_false]
              exact ih f' _ rest hle1 hle2
            · simp only [ne_eq, hs, not_false_eq_true, ite_true]

/-- `DataProcessor.process_variable` (lines 508-600).  Non-strings pass
through; the scope defaults to `self.variable_map` at the call sites
that omit it (`load_include_file`), which the callers below model by
passing `P.variable_map` explicitly. -/
def process_variable (P : DataProcessor) (vm : VarMap) (item : Value) :
    Except ProcError Value :=
  if ¬ P.is_process_variable then .ok item
  else
    match item with
    | .vstr s => process_variable_loop P vm s s.data.length "" s.data
    | v => .ok v

/-! ### Include resolution

Model of `_is_include`, `get_filename`, `load_file`,
`load_include_file` and the `process_data` worklist loop (lines
305-471).  Python's explicit LIFO worklist mutates disjoint subtrees of
one tree in place; the model processes each pushed subtree recursively at
its position, which yields the same final tree (the processor
configuration is read-only during the traversal).  Unbounded include
chains (possible in Python via cyclic includes) are modelled with fuel. -/

/-- Regex `^[A-z_]\w*$` of `INCLUDE_SCHEMA`'s `patternProperties`. -/
def isNamePattern (s : String) : Bool :=
  match s.data with
  | [] => false
  | c :: rest => nameStartChar c && rest.all wordChar

/-- One entry check of `jsonschema.validate(schema=INCLUDE_SCHEMA, ...)`:
the allowed keys with their demanded types
(`additionalProperties: false`). -/
def includeEntryOk : String × Value → Bool
  | ("INCLUDE", .vstr _) => true
  | ("MERGE", .vbool _) => true
  | ("QUERY", .vstr _) => true
  | ("VARIABLES", .vmap vs) =>
    vs.all (fun e => isNamePattern e.1 && (match e.2 with | .vstr _ => true | _ => false))
  | _ => false

/-- `DataProcessor._is_include` (lines 459-471): a dict containing the
`INCLUDE` key that validates against `INCLUDE_SCHEMA`. -/
def is_include (v : Value) : Bool :=
  match v with
  | .vmap kvs => dictHas kvs "INCLUDE" && kvs.all includeEntryOk
  | _ => false

/-- `os.path.isabs` (POSIX). -/
def isAbs (p : String) : Bool := strStartsWith p "/"

/-- `os.path.dirname` (POSIX`os.path.split` head, trailing slashes
stripped unless the head is all slashes). -/
def dirname (p : String) : String :=
  let cs := p.data
  let revBase := cs.reverse.takeWhile (fun c => ¬ c == '/')
  if revBase.length = cs.length then ""
  else
    let headWithSlash := cs.take (cs.length - revBase.length)
    let headStripped := (headWithSlash.reverse.dropWhile (fun c => c == '/')).reverse
    String.mk (if headStripped = [] then headWithSlash else headStripped)

/-- `os.path.join(root, name)` for the shapes reaching it here: `name`
is relative, `root` is non-empty (an absolute directory, the cwd, or a
configured include path). -/
def joinPath (root name : String) : String :=
  if root = "" then name
  else if strStartsWith (String.mk root.data.reverse) "/" then root ++ name
  else root ++ "/" ++ name

/-- Existence test `os.path.exists` against the modelled filesystem. -/
def fsExists (P : DataProcessor) (name : String) : Bool :=
  P.files.any (fun e => e.1 = name)

/-- The search-directory list of `get_filename` (lines 404-412), in the
order the source builds it: the directory of each parent filename *in
chain order* (root file first, nearest ancestor last), then the current
working directory, then the configured include paths. -/
def rootDirs (P : DataProcessor) (parent_filenames : List String) : List String :=
  (parent_filenames.filter (fun f => f ≠ "-")).map dirname ++ [P.cwd] ++ P.include_paths

/-- `DataProcessor.get_filename` (lines 391-417).  `os.path.expanduser`
is the identity on the `~`-free names used here.  Absolute names and
`-` are returned as given; otherwise the first existing candidate wins
and a missing file is the fatal `ENOENT` error. -/
def get_filename (P : DataProcessor) (filename : String)
    (parent_filenames : List String) : Except ProcError String :=
  if isAbs filename || filename == "-" then .ok filename
  else
    match (rootDirs P parent_filenames).find? (fun d => fsExists P (joinPath d filename)) with
    | some d => .ok (joinPath d filename)
    | none => .error (.notFound filename)

/-- `DataProcessor.load_file`: the YAML loader is a collaborator; the
modelled filesystem returns the parsed tree directly. -/
def load_file (P : DataProcessor) (filename : String) : Except ProcError Value :=
  match (P.files.find? (fun e => e.1 = filename)).map (fun e => e.2) with
  | some v => .ok v
  | none => .error (.notFound filename)

/-- Modelled from the spec: `QUERY` applies a `jmespath` query expression
against the fragment (an external library, out of the module's scope);
modelled minimally as a top-level key lookup with jmespath's `null` on a
miss.  No claim and no theorem below exercises a `QUERY`. -/
def jmespathSearch (q : String) (v : Value) : Value :=
  match v with
  | .vmap kvs => (dictGet kvs q).getD .vnull
  | _ => .vnull

/-- The `while` body of `load_include_file` (lines 436-456): substitute
the `INCLUDE` path and the `VARIABLES` values against the *processor's*
`variable_map` (both `process_variable` calls omit the scope argument),
consult `include_dict` before the filesystem, extend the filename chain,
overlay the substituted `VARIABLES` onto the branch scope, and apply the
optional `QUERY`.  Fuel bounds the (possibly cyclic) include chain. -/
def load_include_loop (P : DataProcessor) :
    Nat → Value → List String → VarMap →
    Except ProcError (Value × List String × VarMap)
  | 0, _, _, _ => .error .fuelExhausted
  | fuel + 1, value, pfs, vm =>
    if P.is_process_include && is_include value then
      match value with
      | .vmap kvs =>
        (match process_variable P P.variable_map ((dictGet kvs "INCLUDE").getD .vnull) with
         | .error e => .error e
         | .ok fnV =>
           match fnV with
           | .vstr include_filename =>
             -- substitute the VARIABLES values in place (schema: string values)
             let substVarsE : Except ProcError (List (String × String)) :=
               match dictGet kvs "VARIABLES" with
               | some (.vmap vs) =>
                 vs.foldlM (fun acc e =>
                   match process_variable P P.variable_map e.2 with
                   | .ok (.vstr s) => .ok (acc ++ [(e.1, s)])
                   | .ok _ => .error .typeError
                   | .error er => .error er) []
               | _ => .ok []
             (match substVarsE with
              | .error e => .error e
              | .ok substVars =>
                let loadedE : Except ProcError (Value × String) :=
                  match (P.include_dict.find? (fun e => e.1 = include_filename)) with
                  | some e => .ok (e.2, include_filename)
                  | none =>
                    match get_filename P include_filename pfs with
                    | .ok fn =>
                      (match load_file P fn with
                       | .ok lv => .ok (lv, fn)
                       | .error er => .error er)
                    | .error er => .error er
                match loadedE with
                | .error e => .error e
                | .ok (loaded_value, filename) =>
                  let pfs2 := pfs ++ [filename]
                  let vm2 :=
                    if dictHas kvs "VARIABLES" then vmUpdate vm substVars else vm
                  let value2 :=
                    match dictGet kvs "QUERY" with
                    | some (.vstr q) => jmespathSearch q loaded_value
                    | _ => loaded_value
                  load_include_loop P fuel value2 pfs2 vm2)
           | _ =>
             -- a cast-typed include path: Python would crash in
             -- os.path.expanduser with a TypeError
             .error .typeError)
      | _ => .error .typeError  -- unreachable: is_include demands a dict
    else .ok (value, pfs, vm)

/-- `DataProcessor.load_include_file` (lines 419-457).  The returned
`is_merge` flag is `MERGE_KEY in orig_value`: key *presence* in the
original value, re-evaluated unchanged each loop iteration, hence set
exactly when the loop runs at least once and the original directive
carries a `MERGE` key of either boolean value. -/
def load_include_file (P : DataProcessor) (fuel : Nat) (value : Value)
    (parent_filenames : List String) (variable_map : VarMap) :
    Except ProcError (Value × List String × VarMap × Bool) :=
  let is_merge :=
    P.is_process_include && is_include value &&
      (match value with | .vmap kvs => dictHas kvs "MERGE" | _ => false)
  match load_include_loop P fuel value parent_filenames variable_map with
  | .ok (v, pfs, vm) => .ok (v, pfs, vm, is_merge)
  | .error e => .error e

mutual

/-- One popped worklist entry of `process_data` (lines 316-336, generic
part): apply `process_variable` to the node, then iterate its entries.
Children that the source pushes onto the LIFO worklist are processed
recursively at their position (the subtrees are disjoint and the
processor configuration is read-only, so the orders agree). -/
def process_node (P : DataProcessor) :
    Nat → Value → List String → VarMap → Except ProcError Value
  | 0, _, _, _ => .error .fuelExhausted
  | fuel + 1, data, pfs, vm =>
    match process_variable P vm data with
    | .error e => .error e
    | .ok data1 =>
      match data1 with
      | .vlist xs =>
        (match process_list_items P fuel xs 0 pfs vm with
         | .ok ys => .ok (.vlist ys)
         | .error e => .error e)
      | .vmap kvs =>
        (match process_map_items P fuel kvs kvs [] pfs vm with
         | .ok r => .ok (.vmap r)
         | .error e => .error e)
      | v => .ok v

/-- The `for key, item in enumerate(data)` iteration over a list (lines
333-377).  `enumerate` is a *live* iterator: the index advances by one
each step over the currently mutated list.  A merge (`is_merge` with a
list) deletes the directive element and inserts the included elements at
its position; the first inserted element takes the directive's slot (and
is pushed, i.e. recursively processed, with the branch state), while the
remaining inserted elements are met by the continuing iteration itself —
with the *loop-level* filename chain and scope.  A merge whose included
value is not a list is the fatal `TypeError()`. -/
def process_list_items (P : DataProcessor) :
    Nat → List Value → Nat → List String → VarMap → Except ProcError (List Value)
  | 0, _, _, _, _ => .error .fuelExhausted
  | fuel + 1, cur, i, pfs, vm =>
    if hi : i < cur.length then
      match process_variable P vm (cur.get ⟨i, hi⟩) with
      | .error e => .error e
      | .ok item1 =>
        let cur1 := cur.set i item1
        match load_include_file P fuel item1 pfs vm with
        | .error e => .error e
        | .ok (inc, pfsX, vmX, mrg) =>
          if mrg then
            match inc with
            | .vlist ys =>
              let cur2 := cur1.take i ++ ys ++ cur1.drop (i + 1)
              match ys with
              | [] => process_list_items P fuel cur2 (i + 1) pfs vm
              | y :: _ =>
                if y.isComposite then
                  (match process_node P fuel y pfsX vmX with
                   | .error e => .error e
                   | .ok y2 => process_list_items P fuel (cur2.set i y2) (i + 1) pfs vm)
                else process_list_items P fuel cur2 (i + 1) pfs vm
            | _ => .error .typeError
          else
            let cur2 := if valueBeq inc item1 then cur1 else cur1.set i inc
            let item2 := if valueBeq inc item1 then item1 else inc
            if item2.isComposite then
              (match process_node P fuel item2 pfsX vmX with
               | .error e => .error e
               | .ok v2 => process_list_items P fuel (cur2.set i v2) (i + 1) pfs vm)
            else process_list_items P fuel cur2 (i + 1) pfs vm
    else .ok cur

/-- The `for key, item in data.copy().items()` iteration over a dict
(lines 330-377).  `snap` is the snapshot taken before the loop, `cur`
the live dict, `skip` the `skip_keys` set: keys inserted by an earlier
merge in this same iteration are skipped, so a later original entry with
the same key never overwrites the merged value.  A map merge deletes the
directive entry, inserts each included entry (recursively processing
composite values with the branch state, as the source does by pushing
them), and a merge whose included value is not a dict is the fatal
`TypeError()`. -/
def process_map_items (P : DataProcessor) :
    Nat → List (String × Value) → List (String × Value) → List String →
    List String → VarMap → Except ProcError (List (String × Value))
  | 0, _, _, _, _, _ => .error .fuelExhausted
  | fuel + 1, cur, snap, skip, pfs, vm =>
    match snap with
    | [] => .ok cur
    | (key, item0) :: snapRest =>
      if skip.contains key then process_map_items P fuel cur snapRest skip pfs vm
      else
        match process_variable P vm item0 with
        | .error e => .error e
        | .ok item1 =>
          let cur1 := dictSet cur key item1
          match load_include_file P fuel item1 pfs vm with
          | .error e => .error e
          | .ok (inc, pfsX, vmX, mrg) =>
            if mrg then
              match inc with
              | .vmap ikvs =>
                let cur2 := dictDel cur1 key
                (match process_merge_entries P fuel ikvs cur2 skip pfsX vmX with
                 | .error e => .error e
                 | .ok (cur3, skip2) =>
                   process_map_items P fuel cur3 snapRest skip2 pfs vm)
              | _ => .error .typeError
            else
              let cur2 := if valueBeq inc item1 then cur1 else dictSet cur1 key inc
              let item2 := if valueBeq inc item1 then item1 else inc
              if item2.isComposite then
                (match process_node P fuel item2 pfsX vmX with
                 | .error e => .error e
                 | .ok v2 =>
                   process_map_items P fuel (dictSet cur2 key v2) snapRest skip pfs vm)
              else process_map_items P fuel cur2 snapRest skip pfs vm

/-- The `for include_key, include_item in include_data.items()` insertion
loop of a map merge (lines 361-372): set each included entry, record its
key in `skip_keys`, and schedule composite values (with the branch's
filename chain and scope) for further resolution. -/
def process_merge_entries (P : DataProcessor) :
    Nat → List (String × Value) → List (String × Value) → List String →
    List String → VarMap → Except ProcError (List (String × Value) × List String)
  | 0, _, _, _, _, _ => .error .fuelExhausted
  | fuel + 1, entries, cur, skip, pfsX, vmX =>
    match entries with
    | [] => .ok (cur, skip)
    | (ik, iv) :: rest =>
      let cur1 := dictSet cur ik iv
      let skip1 := skip ++ [ik]
      if iv.isComposite then
        (match process_node P fuel iv pfsX vmX with
         | .error e => .error e
         | .ok iv2 =>
           process_merge_entries P fuel rest (dictSet cur1 ik iv2) skip1 pfsX vmX)
      else process_merge_entries P fuel rest cur1 skip1 pfsX vmX

end

/-- `DataProcessor.process_data` (lines 305-389), up to the resolved
tree: resolve the input name against an empty parent chain, load the
root, and run the worklist, whose first entry is special-cased — a
directive at root level is resolved via `load_include_file` with its
`MERGE` flag ignored (the source keeps only components `[0:3]`).  The
schema-association line, the YAML dump and the JSON-schema validation
that follow are external collaborators and do not alter the tree. -/
def process_data (P : DataProcessor) (fuel : Nat) (in_filename : String) :
    Except ProcError Value :=
  match get_filename P in_filename [] with
  | .error e => .error e
  | .ok inFn =>
    match load_file P inFn with
    | .error e => .error e
    | .ok root =>
      match process_variable P P.variable_map root with
      | .error e => .error e
      | .ok data0 =>
        match load_include_file P fuel data0 [inFn] P.variable_map with
        | .error e => .error e
        | .ok (data1, pfs1, vm1, _) =>
          match data1 with
          | .vlist xs =>
            (match process_list_items P fuel xs 0 pfs1 vm1 with
             | .ok ys => .ok (.vlist ys)
             | .error e => .error e)
          | .vmap kvs =>
            (match process_map_items P fuel kvs kvs [] pfs1 vm1 with
             | .ok r => .ok (.vmap r)
             | .error e => .error e)
          | v => .ok v

/-! ### Step lemmas for the scanning loop -/

/-- An odd escape count yields the token text itself, whatever the scope
and the policy (lines 563-564). -/
theorem token_substitute_odd (P : DataProcessor) (vm : VarMap) (k : Nat)
    (tok : Tok) (hk : k % 2 = 1) :
    token_substitute P vm k tok = .ok (symbolStr tok) := by
  unfold token_substitute
  rw [if_neg (by omega)]

/-- An even escape count with the name bound in scope yields the scope
value (lines 552-553). -/
theorem token_substitute_found (P : DataProcessor) (vm : VarMap) (k : Nat)
    (tok : Tok) (v : String) (hk : k % 2 = 0)
    (hv : vmGet vm (String.mk tok.name) = some v) :
    token_substitute P vm k tok = .ok v := by
  unfold token_substitute
  rw [if_pos hk, hv]

/-- An even escape count, unbound name, no `YP_TIME` prefix, and the
`YP_ORIGINAL` placeholder policy re-emit the token text (lines 557-558). -/
theorem token_substitute_passthrough (P : DataProcessor) (vm : VarMap) (k : Nat)
    (tok : Tok) (hk : k % 2 = 0)
    (hv : vmGet vm (String.mk tok.name) = none)
    (ht : strStartsWith (String.mk tok.name) "YP_TIME" = false)
    (hu : P.unbound_placeholder = some "YP_ORIGINAL") :
    token_substitute P vm k tok = .ok (symbolStr tok) := by
  unfold token_substitute
  rw [if_pos hk, hv]
  simp [ht, hu]

/-- One emitting step of the scanning loop: when no cast is present, or
the substitute equals the token text, the head, the halved backslash run
and the substitute are appended and the scan continues on the tail. -/
theorem process_variable_loop_emit (P : DataProcessor) (vm : VarMap)
    (item : String) (fuel : Nat) (ret : String) (tail head : List Char)
    (k : Nat) (tok : Tok) (rest : List Char) (s : String)
    (hm : findTokenAux tail = some (head, k, tok, rest))
    (hsub : token_substitute P vm k tok = .ok s)
    (hnc : tok.cast = none ∨ s = symbolStr tok) :
    process_variable_loop P vm item (fuel + 1) ret tail
      = process_variable_loop P vm item fuel
          (ret ++ String.mk head ++ String.mk (List.replicate (k / 2) '\\') ++ s)
          rest := by
  simp only [process_variable_loop, hm, hsub]
  rcases hnc with hc | hs
  · simp only [hc]
  · cases hc : tok.cast with
    | none => simp only []
    | some ck => simp only [hs, ne_eq, not_true_eq_false, ite_false]

/-- The cast guard, violated: a live cast token whose substitute differs
from the token text raises `MalformedSubstitution` whenever the head is
non-empty or the current remainder is not the whole original string
(lines 565-568). -/
theorem process_variable_loop_cast_err (P : DataProcessor) (vm : VarMap)
    (item : String) (fuel : Nat) (ret : String) (tail head : List Char)
    (k : Nat) (tok : Tok) (rest : List Char) (ck : CastKind) (s : String)
    (hm : findTokenAux tail = some (head, k, tok, rest))
    (hc : tok.cast = some ck)
    (hsub : token_substitute P vm k tok = .ok s)
    (hs : s ≠ symbolStr tok)
    (hpos : head ≠ [] ∨ String.mk tail ≠ item) :
    process_variable_loop P vm item (fuel + 1) ret tail
      = .error (.malformedSubstitution item) := by
  simp only [process_variable_loop, hm, hsub, hc]
  rw [if_pos hs, if_pos hpos]

/-- The cast guard, satisfied: a live cast token at the very start of
the scan of the whole string is cast, ending the scan with the
`castApply` result regardless of the accumulated output or the text
after the token (lines 569-590). -/
theorem process_variable_loop_cast_ok (P : DataProcessor) (vm : VarMap)
    (item : String) (fuel : Nat) (ret : String) (tail head : List Char)
    (k : Nat) (tok : Tok) (rest : List Char) (ck : CastKind) (s : String)
    (hm : findTokenAux tail = some (head, k, tok, rest))
    (hc : tok.cast = some ck)
    (hsub : token_substitute P vm k tok = .ok s)
    (hs : s ≠ symbolStr tok)
    (hhead : head = []) (htail : String.mk tail = item) :
    process_variable_loop P vm item (fuel + 1) ret tail
      = castApply item s ck := by
  simp only [process_variable_loop, hm, hsub, hc]
  rw [if_pos hs, if_neg (by simp [hhead, htail])]

/-- First-match characterization of `List.find?`. -/
theorem find?_first {α} (p : α → Bool) :
    ∀ (l : List α) (a : α), l.find? p = some a →
      ∃ pre post, l = pre ++ a :: post ∧ p a = true ∧ ∀ x ∈ pre, p x = false := by
  intro l
  induction l with
  | nil => intro a h; exact Option.noConfusion h
  | cons c cs ih =>
    intro a h
    by_cases hc : p c = true
    · rw [List.find?_cons_of_pos _ hc] at h
      cases h
      exact ⟨[], cs, rfl, hc, by intro x hx; exact absurd hx (List.not_mem_nil x)⟩
    · rw [List.find?_cons_of_neg _ (by simpa using hc)] at h
      obtain ⟨pre, post, heq, hpa, hpre⟩ := ih a h
      refine ⟨c :: pre, post, by rw [heq]; rfl, hpa, ?_⟩
      intro x hx
      rcases List.mem_cons.mp hx with hx | hx
      · subst hx; simpa using hc
      · exact hpre x hx

/-! ### Concrete fixtures for the claim theorems

`fixRef` is the reference instant `2022-02-20T22:02:00Z` of the spec's
scenarios; each `proc…` value is a `DataProcessor` together with the
modelled filesystem of one scenario. -/

/-- Reference instant 2022-02-20T22:02:00Z. -/
def fixRef : PyDateTime := ⟨2022, 2, 20, 22, 2, 0, some 0⟩

/-- A processor with empty scope and no filesystem. -/
def procTime : DataProcessor := { time_now := fixRef, time_ref := fixRef }

/-- A processor with the `YP_ORIGINAL` pass-through unbound policy. -/
def procPassthrough : DataProcessor :=
  { time_now := fixRef, time_ref := fixRef,
    unbound_placeholder := some "YP_ORIGINAL" }

/-- Sequence `[A, {INCLUDE: more.yaml, MERGE: true}, B]` with
`more.yaml = [C, D]`. -/
def procListMerge : DataProcessor :=
  { time_now := fixRef, time_ref := fixRef, cwd := "/r",
    files := [
      ("/r/root.yaml", .vlist [.vstr "A",
        .vmap [("INCLUDE", .vstr "more.yaml"), ("MERGE", .vbool true)], .vstr "B"]),
      ("/r/more.yaml", .vlist [.vstr "C", .vstr "D"])] }

/-- A `MERGE` include of a map inside an enclosing sequence. -/
def procListMergeMismatch : DataProcessor :=
  { time_now := fixRef, time_ref := fixRef, cwd := "/r",
    files := [
      ("/r/root.yaml", .vlist [.vstr "A",
        .vmap [("INCLUDE", .vstr "m.yaml"), ("MERGE", .vbool true)]]),
      ("/r/m.yaml", .vmap [("x", .vint 1)])] }

/-- Sequence `[A, {INCLUDE: more.yaml, MERGE: false}, B]` with
`more.yaml = [C, D]`: the `MERGE` key present with value `false`. -/
def procMergeFalse : DataProcessor :=
  { time_now := fixRef, time_ref := fixRef, cwd := "/r",
    files := [
      ("/r/root.yaml", .vlist [.vstr "A",
        .vmap [("INCLUDE", .vstr "more.yaml"), ("MERGE", .vbool false)], .vstr "B"]),
      ("/r/more.yaml", .vlist [.vstr "C", .vstr "D"])] }

/-- Sequence `[A, {INCLUDE: more.yaml}, B]` with `more.yaml = [C, D]`:
no `MERGE` key. -/
def procMergeAbsent : DataProcessor :=
  { time_now := fixRef, time_ref := fixRef, cwd := "/r",
    files := [
      ("/r/root.yaml", .vlist [.vstr "A",
        .vmap [("INCLUDE", .vstr "more.yaml")], .vstr "B"]),
      ("/r/more.yaml", .vlist [.vstr "C", .vstr "D"])] }

/-- Map merge with a key collision against a *later* original entry and
a composite merged value containing a nested directive:
root `{a: 1, d: {INCLUDE: inc.yaml, MERGE: true}, like: X}`,
`inc.yaml = {like: Y, new: {deep: {INCLUDE: z.yaml}}}`, `z.yaml = W`. -/
def procMapMerge : DataProcessor :=
  { time_now := fixRef, time_ref := fixRef, cwd := "/r",
    files := [
      ("/r/root.yaml", .vmap [("a", .vint 1),
        ("d", .vmap [("INCLUDE", .vstr "inc.yaml"), ("MERGE", .vbool true)]),
        ("like", .vstr "X")]),
      ("/r/inc.yaml", .vmap [("like", .vstr "Y"),
        ("new", .vmap [("deep", .vmap [("INCLUDE", .vstr "z.yaml")])])]),
      ("/r/z.yaml", .vstr "W")] }

/-- Three sibling includes of the same fragment: two with different
branch-local `VARIABLES` (the second through a nested include), the
third without, seeing only the processor-level definitions. -/
def procSiblings : DataProcessor :=
  { time_now := fixRef, time_ref := fixRef, cwd := "/h",
    variable_map := [("NAME", "earth"), ("PEOPLE", "human")],
    files := [
      ("/h/hello.yaml", .vmap [("hello", .vlist [
        .vmap [("INCLUDE", .vstr "world.yaml"),
               ("VARIABLES", .vmap [("NAME", .vstr "venus"),
                                    ("PEOPLE", .vstr "venusian")])],
        .vmap [("INCLUDE", .vstr "world2.yaml"),
               ("VARIABLES", .vmap [("NAME", .vstr "mars"),
                                    ("PEOPLE", .vstr "martian")])],
        .vmap [("INCLUDE", .vstr "world.yaml")]])]),
      ("/h/world.yaml", .vmap [("location", .vstr "${NAME}"),
                               ("people", .vstr "${PEOPLE}")]),
      ("/h/world2.yaml", .vmap [("INCLUDE", .vstr "world.yaml")])] }

/-- A pre-seeded fragment cache entry for `f.yaml` *and* an existing
file `/r/f.yaml` with different content. -/
def procCache : DataProcessor :=
  { time_now := fixRef, time_ref := fixRef, cwd := "/r",
    include_dict := [("f.yaml", .vstr "cached")],
    files := [("/r/f.yaml", .vstr "disk")] }

/-- `x.yaml` exists both in the root file's directory `/a` and in the
nearest parent's directory `/b`. -/
def procSearch : DataProcessor :=
  { time_now := fixRef, time_ref := fixRef, cwd := "/c",
    files := [("/a/x.yaml", .vstr "fromRoot"), ("/b/x.yaml", .vstr "fromNearest")] }

/-! ### Claim theorems -/

/-- C1.  The claim says a directive whose `MERGE` key is `false` *or
absent* is simply replaced by the resolved value, splicing only when
`MERGE` is `true`.  The code computes `is_merge = (MERGE_KEY in
orig_value)` — key *presence*, not value — although its own
`INCLUDE_SCHEMA` types `MERGE` as a boolean: with `MERGE: false` the
directive in `[A, ·, B]` is spliced to `[A, C, D, B]` exactly as with
`MERGE: true`, instead of being replaced (which would give
`[A, [C, D], B]`, as it does when the key is absent). -/
theorem C1_merge_false_is_spliced :
    process_data procMergeAbsent 20 "/r/root.yaml"
      = .ok (.vlist [.vstr "A", .vlist [.vstr "C", .vstr "D"], .vstr "B"])
    ∧ process_data procMergeFalse 20 "/r/root.yaml"
      = .ok (.vlist [.vstr "A", .vstr "C", .vstr "D", .vstr "B"]) :=
  ⟨rfl, rfl⟩

/-- C6.  A list merge removes the directive element and inserts the
included sequence's elements at the same position in order —
`[A, {INCLUDE: more.yaml, MERGE: true}, B]` with `more.yaml = [C, D]`
resolves to `[A, C, D, B]` — and a merge whose included value's
container kind differs from the enclosing sequence's kind fails fatally
(the bare `TypeError()` of line 341). -/
theorem C6_list_merge_splice :
    process_data procListMerge 20 "/r/root.yaml"
      = .ok (.vlist [.vstr "A", .vstr "C", .vstr "D", .vstr "B"])
    ∧ process_data procListMergeMismatch 20 "/r/root.yaml" = .error .typeError :=
  ⟨rfl, rfl⟩

/-- C8.  With the reference instant `2022-02-20T22:02:00Z`, substituting
`${YP_TIME_REF_AT_1DT0H0M0S_MINUS_T12H}` yields `2022-01-31T12:00:00Z`
under the default format: `AT` replaces the named calendar fields
absolutely (day 1, time 00:00:00), `MINUS` then applies the
calendar-aware offset of 12 hours, the modifiers acting left to right in
name order, and the zero UTC offset renders as `Z`. -/
theorem C8_time_ref_scenario :
    process_variable procTime [] (.vstr "${YP_TIME_REF_AT_1DT0H0M0S_MINUS_T12H}")
      = .ok (.vstr "2022-01-31T12:00:00Z")
    ∧ process_time_variable procTime "YP_TIME_REF_AT_1DT0H0M0S_MINUS_T12H"
      = .ok "2022-01-31T12:00:00Z" :=
  ⟨rfl, rfl⟩

/-- C5.  A map merge removes the directive entry, inserts each included
key/value, marks each inserted key as already visited for the rest of
the map's snapshotted iteration — so the later original entry
`like: X` does not overwrite the merged `like: Y` — and pushes each
inserted composite value for further resolution (the nested
`{INCLUDE: z.yaml}` inside `new` resolves to `W`).  The second conjunct
is the skip mechanism itself: a snapshot entry whose key is in
`skip_keys` is passed over without any processing. -/
theorem C5_map_merge_skip_keys :
    process_data procMapMerge 20 "/r/root.yaml"
      = .ok (.vmap [("a", .vint 1), ("like", .vstr "Y"),
          ("new", .vmap [("deep", .vstr "W")])])
    ∧ (∀ (P : DataProcessor) (fuel : Nat) (cur : List (String × Value))
        (key : String) (x : Value) (snapRest : List (String × Value))
        (skip : List String) (pfs : List String) (vm : VarMap),
        skip.contains key = true →
        process_map_items P (fuel + 1) cur ((key, x) :: snapRest) skip pfs vm
          = process_map_items P fuel cur snapRest skip pfs vm) := by
  refine ⟨rfl, ?_⟩
  intro P fuel cur key x snapRest skip pfs vm h
  simp only [process_map_items]
  rw [if_pos h]

/-- Witness for the skip conjunct of `C5_map_merge_skip_keys` at a
concrete skip set and snapshot entry. -/
theorem C5_map_merge_skip_keys_witness :
    (["like"].contains "like" = true)
    ∧ process_map_items procTime (1 + 1) [] [("like", .vnull)] ["like"] [] []
        = process_map_items procTime 1 [] [] ["like"] [] [] :=
  ⟨by decide,
   C5_map_merge_skip_keys.2 procTime 1 [] "like" .vnull [] ["like"] [] []
     (by decide)⟩

/-- C9.  Resolving an include directive never alters the caller's scope
or filename chain: `load_include_file` copies both, substitutes and
overlays the `VARIABLES` entries onto the copy, and appends the loaded
name to the copied chain.  First conjunct: a non-directive value returns
the inputs untouched (and no merge flag).  Second conjunct: three
sibling includes of one fragment observe their own branch-local
bindings — `venus`/`venusian`, `mars`/`martian` (through a nested
include), and the processor-level `earth`/`human` — so no branch-local
binding leaks to a sibling or to the parent scope. -/
theorem C9_branch_state_isolation :
    (∀ (P : DataProcessor) (fuel : Nat) (v : Value) (pfs : List String)
        (vm : VarMap), is_include v = false →
        load_include_file P (fuel + 1) v pfs vm = .ok (v, pfs, vm, false))
    ∧ process_data procSiblings 30 "/h/hello.yaml"
        = .ok (.vmap [("hello", .vlist [
            .vmap [("location", .vstr "venus"), ("people", .vstr "venusian")],
            .vmap [("location", .vstr "mars"), ("people", .vstr "martian")],
            .vmap [("location", .vstr "earth"), ("people", .vstr "human")]])]) := by
  refine ⟨?_, rfl⟩
  intro P fuel v pfs vm h
  simp [load_include_file, load_include_loop, h]

/-- Witness for the non-directive conjunct of
`C9_branch_state_isolation` at a concrete scalar value. -/
theorem C9_branch_state_isolation_witness :
    is_include (.vstr "plain") = false
    ∧ load_include_file procTime (3 + 1) (.vstr "plain") ["/p/root.yaml"]
        [("K", "v")]
        = .ok (.vstr "plain", ["/p/root.yaml"], [("K", "v")], false) :=
  ⟨rfl,
   C9_branch_state_isolation.1 procTime 3 (.vstr "plain") ["/p/root.yaml"]
     [("K", "v")] rfl⟩

/-- C3, counterexample.  The claim says the ancestor directories are
searched *nearest first*.  With ancestors `/a/root.yaml` (root) and
`/b/child.yaml` (nearest parent) and `x.yaml` existing in both
directories, `get_filename` returns the candidate from the *root's*
directory `/a` — the chain is iterated from the root outwards, so the
nearest ancestor's `/b/x.yaml` is not the first match. -/
theorem C3_search_order_counterexample :
    fsExists procSearch "/a/x.yaml" = true
    ∧ fsExists procSearch "/b/x.yaml" = true
    ∧ get_filename procSearch "x.yaml" ["/a/root.yaml", "/b/child.yaml"]
        = .ok "/a/x.yaml" :=
  ⟨rfl, rfl, rfl⟩

/-- C3, amended.  Resolution of an include string consults the
in-memory fragment cache first, keyed by the (substituted) include
string — the pre-seeded `f.yaml` entry wins although `/r/f.yaml` exists
on disk, and the cache key itself is appended to the filename chain.
On a cache miss, a relative path is resolved against `rootDirs`: the
ancestor directories in *chain order* (root file first, nearest
ancestor last), then the current working directory, then the configured
include paths; the first existing candidate wins (every earlier
candidate does not exist), and if no candidate exists the resolution
fails with `NotFound`. -/
theorem C3_amended_resolution :
    load_include_file procCache 10 (.vmap [("INCLUDE", .vstr "f.yaml")])
        ["/r/root.yaml"] []
      = .ok (.vstr "cached", ["/r/root.yaml", "f.yaml"], [], false)
    ∧ (∀ (P : DataProcessor) (fn : String) (pfs : List String) (r : String),
        isAbs fn = false → fn ≠ "-" →
        get_filename P fn pfs = .ok r →
        ∃ pre d post, rootDirs P pfs = pre ++ d :: post
          ∧ r = joinPath d fn
          ∧ fsExists P (joinPath d fn) = true
          ∧ ∀ d' ∈ pre, fsExists P (joinPath d' fn) = false)
    ∧ (∀ (P : DataProcessor) (fn : String) (pfs : List String),
        isAbs fn = false → fn ≠ "-" →
        (∀ d ∈ rootDirs P pfs, fsExists P (joinPath d fn) = false) →
        get_filename P fn pfs = .error (.notFound fn)) := by
  refine ⟨rfl, ?_, ?_⟩
  · intro P fn pfs r h1 h2 h3
    unfold get_filename at h3
    rw [if_neg (by simp [h1, h2])] at h3
    cases hf : (rootDirs P pfs).find? (fun d => fsExists P (joinPath d fn)) with
    | none => simp only [hf] at h3; exact Except.noConfusion h3
    | some d =>
      simp only [hf] at h3
      obtain ⟨pre, post, heq, hpd, hpre⟩ := find?_first _ _ _ hf
      exact ⟨pre, d, post, heq, (Except.ok.inj h3).symm, hpd,
        fun d' hd' => hpre d' hd'⟩
  · intro P fn pfs h1 h2 h3
    have hf : (rootDirs P pfs).find? (fun d => fsExists P (joinPath d fn)) = none :=
      List.find?_eq_none.mpr (fun x hx => by simp [h3 x hx])
    unfold get_filename
    rw [if_neg (by simp [h1, h2]), hf]

/-- Witness for the universal conjuncts of `C3_amended_resolution`: the
`NotFound` case at an empty filesystem. -/
theorem C3_amended_resolution_witness :
    isAbs "x.yaml" = false ∧ "x.yaml" ≠ "-"
    ∧ (∀ d ∈ rootDirs procTime [], fsExists procTime (joinPath d "x.yaml") = false)
    ∧ get_filename procTime "x.yaml" [] = .error (.notFound "x.yaml") :=
  ⟨rfl, by decide, by decide,
   C3_amended_resolution.2.2 procTime "x.yaml" [] rfl (by decide) (by decide)⟩

/-- C4, counterexample.  The claim says a delta segment that cannot be
parsed under the delta grammar raises `UnboundVariableError`.  In the
code, `REC_SUBSTITUTE_TIME_DELTA.findall` simply extracts no match from
the unparsable segment `_AT_XX`, so `YP_TIME_REF_AT_XX` resolves
silently to the formatted (unchanged) reference instant instead of
raising. -/
theorem C4_unparsable_delta_counterexample :
    process_time_variable procTime "YP_TIME_REF_AT_XX" = .ok "2022-02-20T22:02:00Z"
    ∧ ¬ (process_time_variable procTime "YP_TIME_REF_AT_XX"
          = .error (.unboundVariable "YP_TIME_REF_AT_XX")) := by
  refine ⟨rfl, fun h => ?_⟩
  have h1 : process_time_variable procTime "YP_TIME_REF_AT_XX"
      = .ok "2022-02-20T22:02:00Z" := rfl
  rw [h1] at h
  exact Except.noConfusion h

/-- C4, amended.  Of the three conditions the claim lists, two do raise
`UnboundVariableError` carrying the original full variable name: a
prefix that is neither `YP_TIME_NOW` nor `YP_TIME_REF` (first conjunct,
for every such name), and a `_FORMAT_` name absent from the format
table (second conjunct).  An unparsable delta segment, however, is
silently ignored by the findall-based delta scanner (third conjunct),
not an error. -/
theorem C4_amended_time_errors :
    (∀ (P : DataProcessor) (name : String),
        strStartsWith name "YP_TIME" = true →
        strStartsWith name "YP_TIME_NOW" = false →
        strStartsWith name "YP_TIME_REF" = false →
        process_time_variable P name = .error (.unboundVariable name))
    ∧ process_time_variable procTime "YP_TIME_REF_FORMAT_BAR"
        = .error (.unboundVariable "YP_TIME_REF_FORMAT_BAR")
    ∧ process_time_variable procTime "YP_TIME_REF_AT_XX"
        = .ok "2022-02-20T22:02:00Z" := by
  refine ⟨?_, rfl, rfl⟩
  intro P name _ hnow href
  simp [process_time_variable, hnow, href]

/-- Witness for the unknown-prefix conjunct of `C4_amended_time_errors`
at the concrete name `YP_TIME_X`. -/
theorem C4_amended_time_errors_witness :
    strStartsWith "YP_TIME_X" "YP_TIME" = true
    ∧ strStartsWith "YP_TIME_X" "YP_TIME_NOW" = false
    ∧ strStartsWith "YP_TIME_X" "YP_TIME_REF" = false
    ∧ process_time_variable procTime "YP_TIME_X"
        = .error (.unboundVariable "YP_TIME_X") :=
  ⟨rfl, rfl, rfl, C4_amended_time_errors.1 procTime "YP_TIME_X" rfl rfl rfl⟩

/-- C7.  A run of `k` backslashes immediately before a `$`-token is
emitted as `⌊k/2⌋` backslashes.  First conjunct (`k` odd): the original
token text is emitted unchanged after the halved run — for *every*
processor and scope, so the name is never looked up and no unbound
failure can arise.  Second conjunct (`k` even, name bound, no cast):
the scope value replaces the token after the halved run.  Third
conjunct: the scenario — with scope `{GREET: Hello, PERSON: Jo}`,
`Today's \${PERSON} is ${PERSON}. $GREET $PERSON!` substitutes to
`Today's ${PERSON} is Jo. Hello Jo!`. -/
theorem C7_escape_semantics :
    (∀ (P : DataProcessor) (vm : VarMap) (item : String) (fuel : Nat)
        (ret : String) (tail head : List Char) (k : Nat) (tok : Tok)
        (rest : List Char),
        findTokenAux tail = some (head, k, tok, rest) → k % 2 = 1 →
        process_variable_loop P vm item (fuel + 1) ret tail
          = process_variable_loop P vm item fuel
              (ret ++ String.mk head ++ String.mk (List.replicate (k / 2) '\\')
                ++ symbolStr tok) rest)
    ∧ (∀ (P : DataProcessor) (vm : VarMap) (item : String) (fuel : Nat)
        (ret : String) (tail head : List Char) (k : Nat) (tok : Tok)
        (rest : List Char) (v : String),
        findTokenAux tail = some (head, k, tok, rest) → k % 2 = 0 →
        tok.cast = none → vmGet vm (String.mk tok.name) = some v →
        process_variable_loop P vm item (fuel + 1) ret tail
          = process_variable_loop P vm item fuel
              (ret ++ String.mk head ++ String.mk (List.replicate (k / 2) '\\')
                ++ v) rest)
    ∧ process_variable procTime [("GREET", "Hello"), ("PERSON", "Jo")]
        (.vstr "Today\x27s \\${PERSON} is ${PERSON}. $GREET $PERSON!")
        = .ok (.vstr "Today\x27s ${PERSON} is Jo. Hello Jo!") := by
  refine ⟨?_, ?_, rfl⟩
  · intro P vm item fuel ret tail head k tok rest hm hk
    exact process_variable_loop_emit P vm item fuel ret tail head k tok rest _
      hm (token_substitute_odd P vm k tok hk) (Or.inr rfl)
  · intro P vm item fuel ret tail head k tok rest v hm hk hc hv
    exact process_variable_loop_emit P vm item fuel ret tail head k tok rest v
      hm (token_substitute_found P vm k tok v hk hv) (Or.inl hc)

/-- Witness for the universal conjuncts of `C7_escape_semantics`: the
escaped token `\${PERSON}` (one backslash) is emitted literally with the
backslash run halved to zero, although `PERSON` is bound in scope. -/
theorem C7_escape_semantics_witness :
    findTokenAux "\\${PERSON}".data
      = some ([], 1, ⟨true, "PERSON".data, none⟩, [])
    ∧ (1 : Nat) % 2 = 1
    ∧ process_variable_loop procTime [("PERSON", "Jo")] "\\${PERSON}" (4 + 1) ""
        "\\${PERSON}".data
      = process_variable_loop procTime [("PERSON", "Jo")] "\\${PERSON}" 4
          ("" ++ String.mk [] ++ String.mk (List.replicate (1 / 2) '\\')
            ++ symbolStr ⟨true, "PERSON".data, none⟩) [] :=
  ⟨rfl, rfl,
   C7_escape_semantics.1 procTime [("PERSON", "Jo")] "\\${PERSON}" 4 ""
     "\\${PERSON}".data [] 1 ⟨true, "PERSON".data, none⟩ [] rfl rfl⟩

/-- C10.  The cast block is entered only when the token's substitute
differs from the token's own text.  First conjunct: an escaped (odd
escape count) cast-suffixed token is re-emitted literally — no
`MalformedSubstitution` or `BadCastValue` regardless of surrounding
text — and scanning continues over the tail.  Second conjunct: the same
for an unbound cast-suffixed token under the `YP_ORIGINAL` pass-through
policy.  The two closing conjuncts run the full substitution on
surrounded occurrences of both shapes. -/
theorem C10_cast_literal_passthrough :
    (∀ (P : DataProcessor) (vm : VarMap) (item : String) (fuel : Nat)
        (ret : String) (tail head : List Char) (k : Nat) (tok : Tok)
        (rest : List Char) (ck : CastKind),
        findTokenAux tail = some (head, k, tok, rest) →
        tok.cast = some ck → k % 2 = 1 →
        process_variable_loop P vm item (fuel + 1) ret tail
          = process_variable_loop P vm item fuel
              (ret ++ String.mk head ++ String.mk (List.replicate (k / 2) '\\')
                ++ symbolStr tok) rest)
    ∧ (∀ (P : DataProcessor) (vm : VarMap) (item : String) (fuel : Nat)
        (ret : String) (tail head : List Char) (k : Nat) (tok : Tok)
        (rest : List Char) (ck : CastKind),
        findTokenAux tail = some (head, k, tok, rest) →
        tok.cast = some ck → k % 2 = 0 →
        vmGet vm (String.mk tok.name) = none →
        strStartsWith (String.mk tok.name) "YP_TIME" = false →
        P.unbound_placeholder = some "YP_ORIGINAL" →
        process_variable_loop P vm item (fuel + 1) ret tail
          = process_variable_loop P vm item fuel
              (ret ++ String.mk head ++ String.mk (List.replicate (k / 2) '\\')
                ++ symbolStr tok) rest)
    ∧ process_variable procTime [("N", "8")] (.vstr "a \\${N.int} b")
        = .ok (.vstr "a ${N.int} b")
    ∧ process_variable procPassthrough [] (.vstr "x ${M.int} y")
        = .ok (.vstr "x ${M.int} y") := by
  refine ⟨?_, ?_, rfl, rfl⟩
  · intro P vm item fuel ret tail head k tok rest ck hm _ hk
    exact process_variable_loop_emit P vm item fuel ret tail head k tok rest _
      hm (token_substitute_odd P vm k tok hk) (Or.inr rfl)
  · intro P vm item fuel ret tail head k tok rest ck hm _ hk hv ht hu
    exact process_variable_loop_emit P vm item fuel ret tail head k tok rest _
      hm (token_substitute_passthrough P vm k tok hk hv ht hu) (Or.inr rfl)

/-- Witness for the universal conjuncts of
`C10_cast_literal_passthrough`: the escaped cast token `\${N.int}` with
`N` bound and surrounding text is emitted literally and the scan
continues. -/
theorem C10_cast_literal_passthrough_witness :
    findTokenAux "a \\${N.int} b".data
      = some (['a', ' '], 1, ⟨true, "N".data, some .toInt⟩, [' ', 'b'])
    ∧ (⟨true, "N".data, some .toInt⟩ : Tok).cast = some .toInt
    ∧ (1 : Nat) % 2 = 1
    ∧ process_variable_loop procTime [("N", "8")] "a \\${N.int} b" (9 + 1) ""
        "a \\${N.int} b".data
      = process_variable_loop procTime [("N", "8")] "a \\${N.int} b" 9
          ("" ++ String.mk ['a', ' '] ++ String.mk (List.replicate (1 / 2) '\\')
            ++ symbolStr ⟨true, "N".data, some .toInt⟩) [' ', 'b'] :=
  ⟨rfl, rfl, rfl,
   C10_cast_literal_passthrough.1 procTime [("N", "8")] "a \\${N.int} b" 9 ""
     "a \\${N.int} b".data ['a', ' '] 1 ⟨true, "N".data, some .toInt⟩ [' ', 'b']
     .toInt rfl rfl rfl⟩

/-- C2, counterexample.  The claim says a live cast token raises
`MalformedSubstitution` whenever the tail after the token is non-empty.
But the code's guard is `if groups['head'] or tail != item`: with the
cast token at the very start of the string, the head is empty and the
scan remainder *is* the whole string, so `${N.int} extra` with `N = 8`
casts successfully to the integer `8`, silently discarding ` extra`
instead of raising. -/
theorem C2_whole_string_counterexample :
    process_variable procTime [("N", "8")] (.vstr "${N.int} extra")
      = .ok (.vint 8)
    ∧ ¬ (process_variable procTime [("N", "8")] (.vstr "${N.int} extra")
          = .error (.malformedSubstitution "${N.int} extra")) := by
  refine ⟨rfl, fun h => ?_⟩
  have h1 : process_variable procTime [("N", "8")] (.vstr "${N.int} extra")
      = .ok (.vint 8) := rfl
  rw [h1] at h
  exact Except.noConfusion h

/-- C2, amended.  For a live cast token whose scope substitute differs
from the token text, substitution raises `MalformedSubstitution`
whenever the head before the token is non-empty *or* the scan remainder
differs from the whole original string; when the token starts the
original string (empty head, remainder equal to the whole string) the
cast is applied — yielding the typed `castApply` result and terminating
the scan immediately, whatever text follows the token. -/
theorem C2_amended_cast_guard :
    ∀ (P : DataProcessor) (vm : VarMap) (item : String) (fuel : Nat)
      (ret : String) (tail head : List Char) (k : Nat) (tok : Tok)
      (rest : List Char) (ck : CastKind) (v : String),
      findTokenAux tail = some (head, k, tok, rest) →
      tok.cast = some ck → k % 2 = 0 →
      vmGet vm (String.mk tok.name) = some v → v ≠ symbolStr tok →
      ((head ≠ [] ∨ String.mk tail ≠ item) →
        process_variable_loop P vm item (fuel + 1) ret tail
          = .error (.malformedSubstitution item))
      ∧ (head = [] → String.mk tail = item →
        process_variable_loop P vm item (fuel + 1) ret tail
          = castApply item v ck) := by
  intro P vm item fuel ret tail head k tok rest ck v hm hc hk hv hs
  constructor
  · intro hpos
    exact process_variable_loop_cast_err P vm item fuel ret tail head k tok
      rest ck v hm hc (token_substitute_found P vm k tok v hk hv) hs hpos
  · intro hh ht
    exact process_variable_loop_cast_ok P vm item fuel ret tail head k tok
      rest ck v hm hc (token_substitute_found P vm k tok v hk hv) hs hh ht

/-- Witness for `C2_amended_cast_guard`: the spec's scenario
`Not ${PI.float}.` with `PI = 3.14` — non-empty head — raises
`MalformedSubstitution`. -/
theorem C2_amended_cast_guard_witness :
    findTokenAux "Not ${PI.float}.".data
      = some ("Not ".data, 0, ⟨true, "PI".data, some .toFloat⟩, ".".data)
    ∧ ("3.14" : String) ≠ symbolStr ⟨true, "PI".data, some .toFloat⟩
    ∧ process_variable_loop procTime [("PI", "3.14")] "Not ${PI.float}."
        (16 + 1) "" "Not ${PI.float}.".data
      = .error (.malformedSubstitution "Not ${PI.float}.") :=
  ⟨rfl, by decide,
   (C2_amended_cast_guard procTime [("PI", "3.14")] "Not ${PI.float}." 16 ""
      "Not ${PI.float}.".data "Not ".data 0 ⟨true, "PI".data, some .toFloat⟩
      ".".data .toFloat "3.14" rfl rfl rfl rfl (by decide)).1
     (Or.inl (by decide))⟩
